import Mathlib

/-!
Shallow embedding of the message-forwarder core (`forwarder.py`):
keyword matching, per-source cursor bookkeeping, the per-cycle
message-processing loop with its forward/copy delivery, and the
startup accessibility checks.  Text is modelled as `List Char`;
Python's per-character `str.lower` as a `Char.toLower` map; the
chat backend's fallible calls as explicit outcome oracles.
-/

set_option maxHeartbeats 1000000

/-- Decides whether `needle` is a leading segment of `haystack`
(character-by-character, as Python substring search would probe). -/
def isPrefixChk : List Char → List Char → Bool
  | [], _ => true
  | _ :: _, [] => false
  | a :: as, b :: bs => a == b && isPrefixChk as bs

/-- Python's `needle in haystack` substring test on strings. -/
def isSubstring (needle : List Char) : List Char → Bool
  | [] => needle.isEmpty
  | c :: rest => isPrefixChk needle (c :: rest) || isSubstring needle rest

/-- The substring relation: `Substr n h` holds when `n` occurs
contiguously inside `h`. -/
def Substr (needle haystack : List Char) : Prop :=
  ∃ u v, haystack = u ++ needle ++ v

/-- Python's per-character case folding `str.lower` on the embedded text. -/
def lower (s : List Char) : List Char := s.map Char.toLower

/-- Helper for `pySplit`: walks the string accumulating the current
(reversed) token, emitting it at whitespace boundaries and at the end. -/
def splitAux : List Char → List Char → List (List Char)
  | [], acc => if acc.isEmpty then [] else [acc.reverse]
  | c :: rest, acc =>
    if c.isWhitespace then
      if acc.isEmpty then splitAux rest [] else acc.reverse :: splitAux rest []
    else splitAux rest (c :: acc)

/-- Python's `str.split()` with no argument: split on runs of whitespace,
discarding empty tokens (`forwarder.py` line 135, `keyword.split()`). -/
def pySplit (s : List Char) : List (List Char) := splitAux s []

/-- The per-keyword test of `contains_keyword` (`forwarder.py` lines
132-140): a keyword with a space requires every whitespace token to be a
substring of the folded text, otherwise a plain substring test. -/
def keywordMatches (message_lower : List Char) (keyword : List Char) : Bool :=
  if keyword.contains ' ' then
    (pySplit keyword).all (fun word => isSubstring word message_lower)
  else
    isSubstring keyword message_lower

/-- `contains_keyword(message_text, keywords_list)` from `forwarder.py`
lines 124-142: empty text matches nothing; otherwise the matched keywords
are collected in input order. -/
def contains_keyword (message_text : List Char)
    (keywords_list : List (List Char)) : List (List Char) :=
  if message_text.isEmpty then []
  else keywords_list.filter (keywordMatches (lower message_text))

/-- Outcome classes of the backend `client.forward_messages` call:
success, or the failure taxonomy of the spec (relay disallowed, network,
rate limit, unknown).  `forwarder.py` line 233 catches every non-ok
outcome with a single bare `except Exception`. -/
inductive ForwardOutcome
  | ok
  | restricted
  | network
  | rateLimited
  | unknownErr
deriving DecidableEq

/-- A fetched candidate message: id, self-originated flag (`message.out`),
text and optional caption. -/
structure Message where
  id : Nat
  out : Bool
  text : List Char
  caption : Option (List Char)
deriving DecidableEq

/-- Outbound backend calls recorded by the embedding: a forward attempt
(`client.forward_messages`), or a plain send (`client.send_message`) with
its content and `link_preview` flag. -/
inductive BackendAct
  | fwd (dest : Int) (msgId : Nat)
  | send (dest : Int) (content : List Char) (linkPrev : Bool)
deriving DecidableEq

/-- Whether an action is a plain send (the copy-fallback call). -/
def isSendAct : BackendAct → Bool
  | BackendAct.send _ _ _ => true
  | _ => false

/-- Whether an action is a forward attempt. -/
def isFwdAct : BackendAct → Bool
  | BackendAct.fwd _ _ => true
  | _ => false

/-- The destination chat an action targets. -/
def actionDest : BackendAct → Int
  | BackendAct.fwd d _ => d
  | BackendAct.send d _ _ => d

/-- Number of plain sends in an action trace. -/
def countSends (l : List BackendAct) : Nat := (l.filter isSendAct).length

/-- The environment a polling cycle runs in: the backend outcome oracles
(forward result and send success per destination and message id), the
source's configured name, and the resolved sender identity per message. -/
structure Ctx where
  forwardRes : Int → Nat → ForwardOutcome
  sendOk : Int → Nat → Bool
  source_name : List Char
  senderNameOf : Message → List Char
  senderUnameOf : Message → Option (List Char)

/-- Text resolution of `forwarder.py` lines 199-204: the message text, or
the caption when the text is empty, or the empty string. -/
def messageText (message : Message) : List Char :=
  if !message.text.isEmpty then message.text
  else
    match message.caption with
    | some c => if !c.isEmpty then c else []
    | none => []

/-- Body used by the copy fallback (`forwarder.py` line 156):
`message.text or (caption or "")`. -/
def copyBody (message : Message) : List Char :=
  if message.text.isEmpty then message.caption.getD [] else message.text

/-- The substitute-message header of `copy_message_content`
(`forwarder.py` lines 151-154), with and without a sender username. -/
def buildHeader (sender_name : List Char) (sender_username : Option (List Char))
    (source_chat_name : List Char) : List Char :=
  match sender_username with
  | some u =>
    ("**From ").data ++ sender_name ++ (" (@").data ++ u ++ (") in ").data
      ++ source_chat_name ++ (":**\n\n").data
  | none =>
    ("**From ").data ++ sender_name ++ (" in ").data ++ source_chat_name
      ++ (":**\n\n").data

/-- `copy_message_content` (`forwarder.py` lines 145-165): builds the
header, sends exactly one substitute message with `link_preview=False`,
and returns whether the send succeeded.  The whole body runs inside
`try/except`, so a failing send yields `False` rather than an exception;
the only fallible operation in the body is the send itself, modelled by
the `sendSucceeds` oracle value. -/
def copy_message_content (sendSucceeds : Bool) (message : Message)
    (dest_chat_id : Int) (source_chat_name : List Char)
    (sender_name : List Char) (sender_username : Option (List Char)) :
    Bool × List BackendAct :=
  let header := buildHeader sender_name sender_username source_chat_name
  let full_message := header ++ copyBody message
  (sendSucceeds, [BackendAct.send dest_chat_id full_message false])

/-- Per-destination step of the message loop (`forwarder.py` lines
213-250): match the destination's keywords; on a match attempt the
forward; on any forward failure (bare `except Exception`) invoke the
copy fallback, passing `sender_name or "Unknown Sender"` and the
configured source name. -/
def processDest (ctx : Ctx) (message : Message) (dest : Int)
    (kws : List (List Char)) : List BackendAct :=
  let matched := contains_keyword (messageText message) kws
  if matched.isEmpty then []
  else if ctx.forwardRes dest message.id = ForwardOutcome.ok then
    [BackendAct.fwd dest message.id]
  else
    let sn := ctx.senderNameOf message
    let snUsed := if sn.isEmpty then ("Unknown Sender").data else sn
    BackendAct.fwd dest message.id ::
      (copy_message_content (ctx.sendOk dest message.id) message dest
        ctx.source_name snUsed (ctx.senderUnameOf message)).2

/-- The destination loop for one message (`forwarder.py` line 213):
every destination bound to the source is tried in order. -/
def processMessage (ctx : Ctx) (dests : List (Int × List (List Char)))
    (message : Message) : List BackendAct :=
  (dests.map (fun d => processDest ctx message d.1 d.2)).flatten

/-- The per-source message loop of `check_and_forward_messages`
(`forwarder.py` lines 193-255): self-originated messages are skipped by
`continue` (which also skips the cursor update); every other message is
processed for all destinations and then the cursor is raised to
`max(cursor, message.id)`.  Returns the action trace and final cursor. -/
def processMessages (ctx : Ctx) (dests : List (Int × List (List Char))) :
    List Message → Nat → List BackendAct × Nat
  | [], cursor => ([], cursor)
  | message :: rest, cursor =>
    if message.out then processMessages ctx dests rest cursor
    else
      let acts := processMessage ctx dests message
      let r := processMessages ctx dests rest (max cursor message.id)
      (acts ++ r.1, r.2)

/-- Maximum id over all fetched messages (what the spec asserts the
cursor reaches). -/
def maxIdAll (msgs : List Message) : Nat :=
  (msgs.map Message.id).foldl max 0

/-- Maximum id over the fetched messages not flagged self-originated
(what the code actually folds into the cursor). -/
def maxIdNonOut (msgs : List Message) : Nat :=
  ((msgs.filter (fun m => !m.out)).map Message.id).foldl max 0

/-- The cursor update of `forwarder.py` lines 252-255:
`last_message_ids[s] = max(last_message_ids[s], message.id)`. -/
def advance (cursor : Int → Nat) (s : Int) (m : Nat) : Int → Nat :=
  fun t => if t = s then max (cursor s) m else cursor t

/-- A sequence of cursor updates applied in order. -/
def runAdvances (cursor : Int → Nat) (ops : List (Int × Nat)) : Int → Nat :=
  ops.foldl (fun c op => advance c op.1 op.2) cursor

/-- A configured source, as an entry of `all_sources`. -/
structure SourceCfg where
  sid : Int
  sname : List Char
deriving DecidableEq

/-- The state built by `main`'s startup loop: the source table (never
filtered by the code), the per-source cursors, and the list of names of
sources whose entity lookup failed. -/
structure StartupState where
  activeSources : List SourceCfg
  cursors : Int → Nat
  inaccessibleSources : List (List Char)

/-- One iteration of the startup source-verification loop
(`forwarder.py` lines 315-345): an accessible source gets its cursor
initialised to the latest message id; an inaccessible one only has its
name appended to `inaccessible_sources` — the exception is caught, the
loop continues, and `all_sources` itself is never modified. -/
def startupStep (acc : Int → Bool) (latest : Int → Nat)
    (st : StartupState) (s : SourceCfg) : StartupState :=
  if acc s.sid then
    { st with cursors := fun t => if t = s.sid then latest s.sid else st.cursors t }
  else
    { st with inaccessibleSources := st.inaccessibleSources ++ [s.sname] }

/-- The whole startup source loop, starting from cursors all zero
(`last_message_ids` initialisation, `forwarder.py` line 96). -/
def startup (acc : Int → Bool) (latest : Int → Nat)
    (sources : List SourceCfg) : StartupState :=
  sources.foldl (startupStep acc latest)
    { activeSources := sources, cursors := fun _ => 0, inaccessibleSources := [] }

/-- The sources a polling cycle fetches from (`forwarder.py` lines
174-185): `check_and_forward_messages` iterates the whole `all_sources`
table and calls `client.get_messages` for each entry. -/
def cycleFetches (st : StartupState) : List Int :=
  st.activeSources.map SourceCfg.sid

/-- A benign concrete environment: every forward succeeds. -/
def ctxOk : Ctx :=
  { forwardRes := fun _ _ => ForwardOutcome.ok
    sendOk := fun _ _ => true
    source_name := ("SRC").data
    senderNameOf := fun _ => ("Alice").data
    senderUnameOf := fun _ => none }

/-- A concrete environment where every forward fails with a network error. -/
def ctxNet : Ctx := { ctxOk with forwardRes := fun _ _ => ForwardOutcome.network }

/-- A concrete environment where every forward is rejected as relay
disallowed, and the sender has a username. -/
def ctxRst : Ctx :=
  { ctxOk with
    forwardRes := fun _ _ => ForwardOutcome.restricted
    senderUnameOf := fun _ => some (("alice").data) }

/-- A concrete incoming message with text matching keyword fragments
used in the examples. -/
def msgA : Message := { id := 1, out := false, text := ("alpha").data, caption := none }

/-- A concrete self-originated message with the highest fetched id. -/
def msgOut5 : Message := { id := 5, out := true, text := ("hi").data, caption := none }

/-- A concrete configured source for the startup examples. -/
def s9 : SourceCfg := { sid := 5, sname := ("S").data }

theorem isPrefixChk_iff :
    ∀ (n h : List Char), isPrefixChk n h = true ↔ ∃ t, h = n ++ t
  | [], h => by simp [isPrefixChk]
  | a :: as, [] => by simp [isPrefixChk]
  | a :: as, b :: bs => by
    simp only [isPrefixChk, Bool.and_eq_true, beq_iff_eq, isPrefixChk_iff as bs,
      List.cons_append, List.cons.injEq]
    constructor
    · rintro ⟨rfl, t, rfl⟩
      exact ⟨t, rfl, rfl⟩
    · rintro ⟨t, rfl, rfl⟩
      exact ⟨rfl, t, rfl⟩

theorem isSubstring_iff (n : List Char) :
    ∀ (h : List Char), isSubstring n h = true ↔ Substr n h
  | [] => by
    simp only [isSubstring, List.isEmpty_iff, Substr]
    constructor
    · rintro rfl
      exact ⟨[], [], rfl⟩
    · rintro ⟨u, v, huv⟩
      rcases List.append_eq_nil.mp huv.symm with ⟨h1, h2⟩
      exact (List.append_eq_nil.mp h1).2
  | c :: rest => by
    simp only [isSubstring, Bool.or_eq_true, isPrefixChk_iff, isSubstring_iff n rest]
    constructor
    · rintro (⟨t, ht⟩ | ⟨u, v, huv⟩)
      · exact ⟨[], t, by simpa using ht⟩
      · exact ⟨c :: u, v, by simp [huv]⟩
    · rintro ⟨u, v, huv⟩
      match u, huv with
      | [], huv => exact Or.inl ⟨v, by simpa using huv⟩
      | c0 :: u, huv =>
        rw [List.cons_append, List.cons_append] at huv
        refine Or.inr ⟨u, v, ?_⟩
        have h2 := (List.cons.injEq _ _ _ _ ▸ huv).2
        simpa using h2

theorem isSubstring_nil_left (h : List Char) : isSubstring [] h = true := by
  cases h with
  | nil => rfl
  | cons c rest => simp [isSubstring, isPrefixChk]

theorem all_isSubstring_iff (l : List (List Char)) (h : List Char) :
    (l.all fun w => isSubstring w h) = true ↔ ∀ w ∈ l, Substr w h := by
  simp only [List.all_eq_true, isSubstring_iff]

theorem substr_mid (u n v : List Char) : Substr n (u ++ n ++ v) := ⟨u, v, rfl⟩

theorem foldl_max_shift :
    ∀ (l : List Nat) (a : Nat), l.foldl max a = max a (l.foldl max 0)
  | [], a => by simp
  | x :: l, a => by
    simp only [List.foldl]
    rw [foldl_max_shift l (max a x), foldl_max_shift l (max 0 x)]
    simp [Nat.max_assoc]

theorem keywordMatches_single (h k : List Char) (hk : k.contains ' ' = false) :
    keywordMatches h k = isSubstring k h := by
  unfold keywordMatches
  rw [hk]
  simp

theorem keywordMatches_multi (h k : List Char) (hk : k.contains ' ' = true) :
    keywordMatches h k = (pySplit k).all fun w => isSubstring w h := by
  unfold keywordMatches
  rw [hk]
  simp

theorem contains_keyword_nil_text (K : List (List Char)) :
    contains_keyword [] K = [] := rfl

theorem contains_keyword_single (T k : List Char) (hT : T ≠ []) :
    contains_keyword T [k] =
      if keywordMatches (lower T) k then [k] else [] := by
  have hTe : T.isEmpty = false := by simpa [List.isEmpty_iff] using hT
  cases h : keywordMatches (lower T) k <;>
    simp [contains_keyword, hTe, List.filter, h]

/-- C1 (amended): for a single-word keyword `k` (no space, pre-folded),
`contains_keyword(T, [k])` is non-empty iff the text is non-empty and `k`
is a substring of the case-folded text.  (The unamended claim fails at
`T = ""`, `k = ""`.) -/
theorem single_word_match (T k : List Char) (hk : k.contains ' ' = false) :
    contains_keyword T [k] ≠ [] ↔ (T ≠ [] ∧ Substr k (lower T)) := by
  by_cases hT : T = []
  · subst hT
    simp [contains_keyword_nil_text]
  · rw [contains_keyword_single T k hT, keywordMatches_single _ _ hk]
    cases hsub : isSubstring k (lower T) with
    | true =>
      simp only [if_true, hT, true_and, ne_eq, List.cons_ne_nil, not_false_iff, true_iff]
      exact (isSubstring_iff k (lower T)).mp hsub
    | false =>
      have hns : ¬ Substr k (lower T) := fun hc => by
        rw [(isSubstring_iff k (lower T)).mpr hc] at hsub
        exact Bool.true_eq_false.mp hsub
      simp [hns]

/-- C1 witness: the keyword "h" matches the text "hi". -/
theorem single_word_match_w :
    contains_keyword (("hi").data) [("h").data] ≠ [] :=
  (single_word_match (("hi").data) (("h").data) (by decide)).mpr
    ⟨by decide, ⟨[], ("i").data, by decide⟩⟩

/-- C1 counterexample: at `T = ""` and `k = ""` the claim's biconditional
fails: the empty keyword is a substring of the folded empty text, yet
`contains_keyword` returns the empty list. -/
theorem single_word_match_cex :
    ((([] : List Char).contains ' ') = false)
    ∧ ¬ (contains_keyword ([] : List Char) [([] : List Char)] ≠ [] ↔
          Substr ([] : List Char) (lower ([] : List Char))) := by
  refine ⟨by decide, fun h => ?_⟩
  exact (h.mpr ⟨[], [], rfl⟩) rfl

/-- C2 (amended): for a keyword `k` containing a space (pre-folded),
`contains_keyword(T, [k])` reports a match iff the text is non-empty and
every whitespace-separated token of `k` is a substring of the case-folded
text, independent of order or adjacency.  (The unamended claim fails at
`T = ""` with the all-whitespace keyword `" "`, whose token list is
empty.) -/
theorem multi_word_match (T k : List Char) (hk : k.contains ' ' = true) :
    contains_keyword T [k] ≠ [] ↔
      (T ≠ [] ∧ ∀ w ∈ pySplit k, Substr w (lower T)) := by
  by_cases hT : T = []
  · subst hT
    simp [contains_keyword_nil_text]
  · rw [contains_keyword_single T k hT, keywordMatches_multi _ _ hk]
    cases hall : ((pySplit k).all fun w => isSubstring w (lower T)) with
    | true =>
      simp only [if_true, hT, true_and, ne_eq, List.cons_ne_nil, not_false_iff, true_iff]
      exact (all_isSubstring_iff _ _).mp hall
    | false =>
      have hns : ¬ ∀ w ∈ pySplit k, Substr w (lower T) := fun hc => by
        rw [(all_isSubstring_iff _ _).mpr hc] at hall
        exact Bool.true_eq_false.mp hall
      simp [hns]

/-- C2 witness: the keyword "a b" matches the text "b x a", whose tokens
appear out of order. -/
theorem multi_word_match_w :
    contains_keyword (("b x a").data) [("a b").data] ≠ [] :=
  (multi_word_match (("b x a").data) (("a b").data) (by decide)).mpr
    ⟨by decide, (all_isSubstring_iff _ _).mp (by decide)⟩

/-- C2 counterexample: at `T = ""` and `k = " "` the claim's biconditional
fails: the keyword contains a space and has no tokens, so every token
vacuously appears in the folded text, yet `contains_keyword` returns the
empty list. -/
theorem multi_word_match_cex :
    ((([' '] : List Char).contains ' ') = true)
    ∧ pySplit ([' '] : List Char) = []
    ∧ ¬ (contains_keyword ([] : List Char) [([' '] : List Char)] ≠ [] ↔
          ∀ w ∈ pySplit ([' '] : List Char), Substr w (lower ([] : List Char))) := by
  refine ⟨by decide, rfl, fun h => ?_⟩
  refine (h.mpr ?_) rfl
  intro w hw
  rw [show pySplit ([' '] : List Char) = [] from rfl] at hw
  exact absurd hw (List.not_mem_nil w)

/-- C3: `contains_keyword` returns a subsequence of the keyword list
(matched keywords keep their input order and multiplicities are not
exceeded), and empty text matches nothing. -/
theorem contains_keyword_sublist (T : List Char) (K : List (List Char)) :
    (contains_keyword T K).Sublist K
    ∧ (∀ k, (contains_keyword T K).count k ≤ K.count k)
    ∧ contains_keyword ([] : List Char) K = [] := by
  have hsub : (contains_keyword T K).Sublist K := by
    by_cases hT : T.isEmpty
    · simp [contains_keyword, hT]
    · simp only [contains_keyword, hT, Bool.false_eq_true, if_false]
      exact List.filter_sublist K
  exact ⟨hsub, fun k => hsub.count_le k, rfl⟩

/-- C4: the cursor update is `max`, and for every sequence of advance
operations with arbitrary (including out-of-order) message ids, no call
ever decreases any source's cursor. -/
theorem cursor_monotone (cursor : Int → Nat) (s t : Int) (m : Nat)
    (ops : List (Int × Nat)) :
    advance cursor s m s = max (cursor s) m
    ∧ cursor t ≤ runAdvances cursor ops t := by
  refine ⟨by simp [advance], ?_⟩
  induction ops generalizing cursor with
  | nil => exact Nat.le_refl _
  | cons op rest ih =>
    have h1 : cursor t ≤ advance cursor op.1 op.2 t := by
      by_cases h : t = op.1 <;> simp [advance, h, Nat.le_max_left]
    calc cursor t ≤ advance cursor op.1 op.2 t := h1
      _ ≤ runAdvances (advance cursor op.1 op.2) rest t := ih _
      _ = runAdvances cursor (op :: rest) t := by simp [runAdvances, List.foldl]

/-- C5 (amended): after one polling cycle processes a source's fetched
messages without a source-level exception, the cursor equals the maximum
of its previous value and the maximum id among the fetched messages NOT
flagged self-originated: delivery failures and non-matching messages
still advance the cursor, but self-originated messages are skipped by
`continue` before the cursor update, so their ids never advance it. -/
theorem cursor_after_cycle (ctx : Ctx) (dests : List (Int × List (List Char)))
    (msgs : List Message) (c0 : Nat) :
    (processMessages ctx dests msgs c0).2 = max c0 (maxIdNonOut msgs) := by
  induction msgs generalizing c0 with
  | nil => simp [processMessages, maxIdNonOut]
  | cons m rest ih =>
    by_cases hm : m.out
    · have hfil : (m :: rest).filter (fun x => !x.out) = rest.filter (fun x => !x.out) := by
        simp [List.filter, hm]
      simp [processMessages, hm, ih, maxIdNonOut, hfil]
    · have hfil : (m :: rest).filter (fun x => !x.out)
          = m :: rest.filter (fun x => !x.out) := by
        simp [List.filter, hm]
      have hnm : maxIdNonOut (m :: rest) = max m.id (maxIdNonOut rest) := by
        simp only [maxIdNonOut, hfil, List.map_cons, List.foldl_cons]
        rw [foldl_max_shift]
        simp
      simp only [processMessages, hm, if_false, ih, hnm]
      simp [Nat.max_assoc]

/-- C5 counterexample: a cycle whose only fetched message is
self-originated (id 5) leaves the cursor at 0, not at the claimed
maximum fetched id 5. -/
theorem cursor_after_cycle_cex :
    msgOut5.out = true
    ∧ (processMessages ctxOk [] [msgOut5] 0).2 = 0
    ∧ max 0 (maxIdAll [msgOut5]) = 5
    ∧ (processMessages ctxOk [] [msgOut5] 0).2 ≠ max 0 (maxIdAll [msgOut5]) := by
  refine ⟨rfl, rfl, rfl, by decide⟩

/-- C6 (amended): for a matched (message, destination) pair the copy
fallback is invoked exactly when the forward fails, for EVERY failure
class alike — the code catches `Exception` broadly, so network, rate
limit and unknown errors also trigger a copy, not only the
relay-disallowed class. -/
theorem copy_on_any_forward_failure (ctx : Ctx) (m : Message) (dest : Int)
    (kws : List (List Char))
    (hm : contains_keyword (messageText m) kws ≠ []) :
    countSends (processDest ctx m dest kws)
      = if ctx.forwardRes dest m.id = ForwardOutcome.ok then 0 else 1 := by
  have hm2 : (contains_keyword (messageText m) kws).isEmpty = false := by
    simpa [List.isEmpty_iff] using hm
  by_cases hf : ctx.forwardRes dest m.id = ForwardOutcome.ok <;>
    simp [processDest, hm2, hf, countSends, copy_message_content, isSendAct,
      List.filter]

/-- C6 witness: in the network-failure environment, the matched pair
yields one copy send, matching the amended equation. -/
theorem copy_on_any_forward_failure_w :
    countSends (processDest ctxNet msgA 9 [("alpha").data])
      = if ctxNet.forwardRes 9 msgA.id = ForwardOutcome.ok then 0 else 1 :=
  copy_on_any_forward_failure ctxNet msgA 9 [("alpha").data] (by decide)

/-- C6 counterexample: a forward failure of the network class (not a
relay restriction) still sends a copy, contradicting the claim that
other failure classes are surfaced without sending a copy. -/
theorem copy_on_network_failure_cex :
    ctxNet.forwardRes 9 msgA.id = ForwardOutcome.network
    ∧ ctxNet.forwardRes 9 msgA.id ≠ ForwardOutcome.restricted
    ∧ countSends (processDest ctxNet msgA 9 [("alpha").data]) = 1 := by
  refine ⟨rfl, by decide, by decide⟩

theorem processDest_fail (ctx : Ctx) (m : Message) (dest : Int)
    (kws : List (List Char))
    (hm : (contains_keyword (messageText m) kws).isEmpty = false)
    (hf : ¬ ctx.forwardRes dest m.id = ForwardOutcome.ok) :
    processDest ctx m dest kws
      = BackendAct.fwd dest m.id ::
        (copy_message_content (ctx.sendOk dest m.id) m dest ctx.source_name
          (if (ctx.senderNameOf m).isEmpty then ("Unknown Sender").data
           else ctx.senderNameOf m)
          (ctx.senderUnameOf m)).2 := by
  simp [processDest, hm, hf]

theorem hdrAt_split : (" (@").data = [' ', '('] ++ [('@')] := by decide

/-- C7: when the forward of a matched message fails, the fallback sends
exactly one substitute message: its content is the header followed by the
original text (or caption when the text is empty), the header contains
the sender's name, the `@handle` when available, and the source chat
name, link-preview expansion is suppressed, and `copy_message_content`
returns a boolean (`False` on a failing send) instead of raising — in the
embedding it is a total function whose only fallible operation is the
send oracle. -/
theorem copy_fallback_header (ctx : Ctx) (m : Message) (dest : Int)
    (kws : List (List Char))
    (hm : contains_keyword (messageText m) kws ≠ [])
    (hf : ctx.forwardRes dest m.id ≠ ForwardOutcome.ok)
    (hs : ctx.senderNameOf m ≠ []) :
    (processDest ctx m dest kws).filter isSendAct
      = [BackendAct.send dest
          (buildHeader (ctx.senderNameOf m) (ctx.senderUnameOf m) ctx.source_name
            ++ copyBody m) false]
    ∧ Substr (ctx.senderNameOf m)
        (buildHeader (ctx.senderNameOf m) (ctx.senderUnameOf m) ctx.source_name)
    ∧ Substr ctx.source_name
        (buildHeader (ctx.senderNameOf m) (ctx.senderUnameOf m) ctx.source_name)
    ∧ (∀ u, ctx.senderUnameOf m = some u →
        Substr (('@') :: u)
          (buildHeader (ctx.senderNameOf m) (ctx.senderUnameOf m) ctx.source_name))
    ∧ (copy_message_content (ctx.sendOk dest m.id) m dest ctx.source_name
        (ctx.senderNameOf m) (ctx.senderUnameOf m)).1 = ctx.sendOk dest m.id := by
  have hm2 : (contains_keyword (messageText m) kws).isEmpty = false := by
    simpa [List.isEmpty_iff] using hm
  have hsE : (ctx.senderNameOf m).isEmpty = false := by
    simpa [List.isEmpty_iff] using hs
  refine ⟨?_, ?_, ?_, ?_, rfl⟩
  · rw [processDest_fail ctx m dest kws hm2 hf]
    simp [copy_message_content, isSendAct, List.filter, hsE]
  · cases hu : ctx.senderUnameOf m with
    | some u =>
      refine ⟨("**From ").data,
        (" (@").data ++ u ++ (") in ").data ++ ctx.source_name
          ++ (":**\n\n").data, ?_⟩
      simp [buildHeader, hu]
    | none =>
      refine ⟨("**From ").data,
        (" in ").data ++ ctx.source_name ++ (":**\n\n").data, ?_⟩
      simp [buildHeader, hu]
  · cases hu : ctx.senderUnameOf m with
    | some u =>
      refine ⟨("**From ").data ++ ctx.senderNameOf m ++ (" (@").data ++ u
          ++ (") in ").data, (":**\n\n").data, ?_⟩
      simp [buildHeader, hu]
    | none =>
      refine ⟨("**From ").data ++ ctx.senderNameOf m ++ (" in ").data,
        (":**\n\n").data, ?_⟩
      simp [buildHeader, hu]
  · intro u hu
    refine ⟨("**From ").data ++ ctx.senderNameOf m ++ [' ', '('],
      (") in ").data ++ ctx.source_name ++ (":**\n\n").data, ?_⟩
    simp [buildHeader, hu, hdrAt_split]

/-- C7 witness: in the relay-rejected environment the fallback for the
matched message sends exactly one substitute with the expected header. -/
theorem copy_fallback_header_w :
    (processDest ctxRst msgA 3 [("alpha").data]).filter isSendAct
      = [BackendAct.send 3
          (buildHeader (ctxRst.senderNameOf msgA) (ctxRst.senderUnameOf msgA)
              ctxRst.source_name
            ++ copyBody msgA) false]
    ∧ Substr (ctxRst.senderNameOf msgA)
        (buildHeader (ctxRst.senderNameOf msgA) (ctxRst.senderUnameOf msgA)
          ctxRst.source_name)
    ∧ Substr ctxRst.source_name
        (buildHeader (ctxRst.senderNameOf msgA) (ctxRst.senderUnameOf msgA)
          ctxRst.source_name)
    ∧ (∀ u, ctxRst.senderUnameOf msgA = some u →
        Substr (('@') :: u)
          (buildHeader (ctxRst.senderNameOf msgA) (ctxRst.senderUnameOf msgA)
            ctxRst.source_name))
    ∧ (copy_message_content (ctxRst.sendOk 3 msgA.id) msgA 3 ctxRst.source_name
        (ctxRst.senderNameOf msgA) (ctxRst.senderUnameOf msgA)).1
        = ctxRst.sendOk 3 msgA.id :=
  copy_fallback_header ctxRst msgA 3 [("alpha").data]
    (by decide) (by decide) (by decide)

theorem processDest_no_match (ctx : Ctx) (m : Message) (d : Int)
    (ks : List (List Char))
    (h : contains_keyword (messageText m) ks = []) :
    processDest ctx m d ks = [] := by
  simp [processDest, h]

theorem processDest_dest (ctx : Ctx) (m : Message) (d : Int)
    (ks : List (List Char)) :
    ∀ a ∈ processDest ctx m d ks, actionDest a = d := by
  intro a ha
  by_cases hm : (contains_keyword (messageText m) ks).isEmpty
  · simp [processDest, hm] at ha
  · by_cases hf : ctx.forwardRes d m.id = ForwardOutcome.ok
    · simp only [processDest, hm, hf, if_true, if_false, Bool.false_eq_true,
        List.mem_singleton] at ha
      simp [ha, actionDest]
    · rw [processDest_fail ctx m d ks (by simpa using hm) hf] at ha
      simp only [copy_message_content, List.mem_cons, List.not_mem_nil,
        or_false] at ha
      rcases ha with rfl | rfl <;> simp [actionDest]

theorem processDest_fwd_filter (ctx : Ctx) (m : Message) (d : Int)
    (ks : List (List Char))
    (hm : (contains_keyword (messageText m) ks).isEmpty = false) :
    (processDest ctx m d ks).filter isFwdAct = [BackendAct.fwd d m.id] := by
  by_cases hf : ctx.forwardRes d m.id = ForwardOutcome.ok
  · simp [processDest, hm, hf, isFwdAct, List.filter]
  · rw [processDest_fail ctx m d ks hm hf]
    simp [copy_message_content, isFwdAct, List.filter]

/-- C8: for a source bound to destinations A and B with disjoint keyword
sets, a single non-self-originated message matching only A's keywords
produces exactly one forward attempt, directed to A, every recorded
backend call targets A (so zero sends reach B), and in general a
non-matching (message, destination) pair produces no backend call at
all. -/
theorem routing_fanout (ctx : Ctx) (A B : Int) (kwA kwB : List (List Char))
    (m : Message) (c0 : Nat)
    (hAB : A ≠ B)
    (_hdisj : ∀ k ∈ kwA, k ∉ kwB)
    (hA : contains_keyword (messageText m) kwA ≠ [])
    (hB : contains_keyword (messageText m) kwB = [])
    (hout : m.out = false) :
    ((processMessages ctx [(A, kwA), (B, kwB)] [m] c0).1.filter isFwdAct
        = [BackendAct.fwd A m.id])
    ∧ (∀ a ∈ (processMessages ctx [(A, kwA), (B, kwB)] [m] c0).1,
        actionDest a = A ∧ actionDest a ≠ B)
    ∧ (∀ (d : Int) (ks : List (List Char)),
        contains_keyword (messageText m) ks = [] →
          processDest ctx m d ks = []) := by
  have hA2 : (contains_keyword (messageText m) kwA).isEmpty = false := by
    simpa [List.isEmpty_iff] using hA
  have hacts : (processMessages ctx [(A, kwA), (B, kwB)] [m] c0).1
      = processDest ctx m A kwA := by
    simp [processMessages, hout, processMessage,
      processDest_no_match ctx m B kwB hB]
  refine ⟨?_, ?_, fun d ks h => processDest_no_match ctx m d ks h⟩
  · rw [hacts]
    exact processDest_fwd_filter ctx m A kwA hA2
  · intro a ha
    rw [hacts] at ha
    have hd := processDest_dest ctx m A kwA a ha
    exact ⟨hd, fun hc => hAB (hd ▸ hc)⟩

/-- C8 witness: with destinations 1 and 2 and disjoint keyword sets
\x7b"a"\x7d and \x7b"b"\x7d, the message "alpha" matches only
destination 1 and yields exactly one forward attempt, to 1. -/
theorem routing_fanout_w :
    ((processMessages ctxOk [(1, [("a").data]), (2, [("b").data])] [msgA] 0).1.filter
          isFwdAct
        = [BackendAct.fwd 1 msgA.id])
    ∧ (∀ a ∈ (processMessages ctxOk [(1, [("a").data]), (2, [("b").data])]
          [msgA] 0).1,
        actionDest a = 1 ∧ actionDest a ≠ 2)
    ∧ (∀ (d : Int) (ks : List (List Char)),
        contains_keyword (messageText msgA) ks = [] →
          processDest ctxOk msgA d ks = []) :=
  routing_fanout ctxOk 1 2 [("a").data] [("b").data] msgA 0
    (by decide) (by decide) (by decide) (by decide) rfl

theorem startup_foldl_active (acc : Int → Bool) (latest : Int → Nat) :
    ∀ (sources : List SourceCfg) (st : StartupState),
      (sources.foldl (startupStep acc latest) st).activeSources
        = st.activeSources
  | [], st => rfl
  | s :: rest, st => by
    have hstep : (startupStep acc latest st s).activeSources = st.activeSources := by
      by_cases h : acc s.sid <;> simp [startupStep, h]
    simp only [List.foldl_cons]
    rw [startup_foldl_active acc latest rest (startupStep acc latest st s), hstep]

theorem startup_foldl_inacc (acc : Int → Bool) (latest : Int → Nat) :
    ∀ (sources : List SourceCfg) (st : StartupState),
      (sources.foldl (startupStep acc latest) st).inaccessibleSources
        = st.inaccessibleSources
          ++ ((sources.filter fun s => !acc s.sid).map SourceCfg.sname)
  | [], st => by simp
  | s :: rest, st => by
    simp only [List.foldl_cons]
    rw [startup_foldl_inacc acc latest rest (startupStep acc latest st s)]
    by_cases h : acc s.sid
    · simp [startupStep, h, List.filter]
    · simp [startupStep, h, List.filter]

/-- C9 (amended): a source found inaccessible at startup is recorded in
`inaccessible_sources` and logged, but is NOT excluded from the active
set: the source table used by the polling cycle is unchanged, the next
cycle still attempts a fetch for the inaccessible source, and delivery
is attempted for any matched destination id regardless of its
accessibility; the startup access failure does not crash the process
(the exception is caught and the loop continues, which the total
embedding reflects). -/
theorem startup_no_exclusion (acc : Int → Bool) (latest : Int → Nat)
    (sources : List SourceCfg) (s : SourceCfg)
    (hs : s ∈ sources) (hacc : acc s.sid = false) :
    (startup acc latest sources).activeSources = sources
    ∧ s.sname ∈ (startup acc latest sources).inaccessibleSources
    ∧ s.sid ∈ cycleFetches (startup acc latest sources)
    ∧ ∀ (ctx : Ctx) (m : Message) (d : Int) (ks : List (List Char)),
        contains_keyword (messageText m) ks ≠ [] →
          processDest ctx m d ks ≠ [] := by
  have hact : (startup acc latest sources).activeSources = sources :=
    startup_foldl_active acc latest sources _
  refine ⟨hact, ?_, ?_, ?_⟩
  · rw [startup, startup_foldl_inacc acc latest sources _]
    simp only [List.mem_append, List.mem_map]
    exact Or.inr ⟨s, List.mem_filter.mpr ⟨hs, by simp [hacc]⟩, rfl⟩
  · rw [cycleFetches, hact]
    exact List.mem_map.mpr ⟨s, hs, rfl⟩
  · intro ctx m d ks h
    have h2 : (contains_keyword (messageText m) ks).isEmpty = false := by
      simpa [List.isEmpty_iff] using h
    by_cases hf : ctx.forwardRes d m.id = ForwardOutcome.ok
    · simp [processDest, h2, hf]
    · rw [processDest_fail ctx m d ks h2 hf]
      simp

/-- C9 witness: a concrete one-source configuration where the source is
inaccessible, instantiating the amended statement. -/
theorem startup_no_exclusion_w :
    (startup (fun _ => false) (fun _ => 0) [s9]).activeSources = [s9]
    ∧ s9.sname ∈ (startup (fun _ => false) (fun _ => 0) [s9]).inaccessibleSources
    ∧ s9.sid ∈ cycleFetches (startup (fun _ => false) (fun _ => 0) [s9])
    ∧ ∀ (ctx : Ctx) (m : Message) (d : Int) (ks : List (List Char)),
        contains_keyword (messageText m) ks ≠ [] →
          processDest ctx m d ks ≠ [] :=
  startup_no_exclusion (fun _ => false) (fun _ => 0) [s9] s9
    (List.mem_singleton.mpr rfl) rfl

/-- C9 counterexample: the claim says an inaccessible source is not
fetched on subsequent cycles; concretely, source 5 is recorded as
inaccessible at startup yet its id still appears in the cycle's fetch
list. -/
theorem startup_exclusion_cex :
    s9.sname ∈ (startup (fun _ => false) (fun _ => 0) [s9]).inaccessibleSources
    ∧ s9.sid ∈ cycleFetches (startup (fun _ => false) (fun _ => 0) [s9]) := by
  refine ⟨?_, ?_⟩ <;> decide

/-- C10: whenever the empty string is among the keywords and the text is
non-empty, the empty string is reported as matched, because the
substring test of the empty string succeeds against every text. -/
theorem empty_keyword_always_matches (T : List Char) (K : List (List Char))
    (hT : T ≠ []) (hK : ([] : List Char) ∈ K) :
    ([] : List Char) ∈ contains_keyword T K := by
  have hTe : T.isEmpty = false := by simpa [List.isEmpty_iff] using hT
  simp only [contains_keyword, hTe, Bool.false_eq_true, if_false]
  refine List.mem_filter.mpr ⟨hK, ?_⟩
  rw [keywordMatches_single _ _ (by decide)]
  exact isSubstring_nil_left (lower T)

/-- C10 witness: the empty keyword matches the text "x". -/
theorem empty_keyword_always_matches_w :
    ([] : List Char) ∈ contains_keyword (("x").data) [([] : List Char)] :=
  empty_keyword_always_matches (("x").data) [([] : List Char)]
    (by decide) (by decide)
